import Mathlib

/-!
Verification development for the Heat-Plume-Prediction repository.

The definitions below are shallow embeddings of the repository's code:
strings are `List Char`, tensors/fields are `List ℚ`, Python exceptions are
an `Except` error value, and the driver loops of
`preprocessing/prepare_2ndstage.py` are embedded as functions producing
explicit event traces.  Components of the repository that live in the
`domain_classes` package (the `Domain`, `HeatPump` and `Stitching` classes)
are not part of the sources; where a property depends on them they are
modelled from the specification, and each such definition says so in its
doc comment.
-/

namespace HeatPlume

/-- Python exceptions that the embedded code can raise. -/
inductive PyErr where
  | assertionError
  | zeroDivisionError
deriving DecidableEq, Repr

/-! ### String search, embedding Python `str.find` (src/data/utils.py) -/

/-- `beginsWith pat s` is true iff `pat` occurs at the very start of `s`. -/
def beginsWith : List Char → List Char → Bool
  | [], _ => true
  | _ :: _, [] => false
  | p :: ps, c :: cs => p = c && beginsWith ps cs

/-- Embedding of Python `s.find(pat)`: index of the first occurrence of
`pat` in `s`, `none` standing for Python's `-1`. -/
def strFind (pat : List Char) : List Char → Option Nat
  | [] => if beginsWith pat [] then some 0 else none
  | c :: cs =>
    if beginsWith pat (c :: cs) then some 0
    else (strFind pat cs).map (fun n => n + 1)

/-- `pat` occurs in `s` first at index `i`. -/
def occursFirstAt (pat s : List Char) (i : Nat) : Prop :=
  beginsWith pat (s.drop i) = true ∧ ∀ j < i, beginsWith pat (s.drop j) = false

/-- `pat` occurs somewhere in `s`. -/
def occursIn (pat s : List Char) : Prop :=
  ∃ i, beginsWith pat (s.drop i) = true

/-! ### `separate_property_unit` and `PhysicalVariable` (src/data/utils.py) -/

/-- The search pattern `' ['` of `separate_property_unit`. -/
def spaceOpen : List Char := [' ', '[']

/-- The search pattern `']'` of `separate_property_unit`. -/
def closeBr : List Char := [']']

/-- Embedding of `separate_property_unit` (src/data/utils.py, lines 25-40):
find `' ['` and `']'`; assert that both or neither are present
(`AssertionError` otherwise); if both are present the name is the text
before `' ['` and the unit the text between `' ['` and `']'` (Python slices
`property_in[:index_open]` and `property_in[index_open+2:index_close]`),
otherwise the name is the whole string and the unit `None`. -/
def separate_property_unit (property_in : List Char) :
    Except PyErr (List Char × Option (List Char)) :=
  match strFind spaceOpen property_in, strFind closeBr property_in with
  | some index_open, some index_close =>
    .ok (property_in.take index_open,
         some ((property_in.take index_close).drop (index_open + 2)))
  | none, none => .ok (property_in, none)
  | _, _ => .error .assertionError

/-- Embedding of the `PhysicalVariable` record (src/data/utils.py): a field
for each Python attribute set in `__init__`. -/
structure PhysicalVariable where
  id_name : List Char
  name_without_unit : List Char
  unit : Option (List Char)
  value : Option (List ℚ)
  mean_orig : Option ℚ
  std_orig : Option ℚ
deriving DecidableEq, Repr

/-- Embedding of `PhysicalVariable.__init__` (src/data/utils.py, lines
44-50): parse the identifier once via `separate_property_unit` and store the
resulting pair along with the value; `mean_orig` and `std_orig` start as
`None`. -/
def PhysicalVariable.init (name : List Char) (value : Option (List ℚ)) :
    Except PyErr PhysicalVariable :=
  match separate_property_unit name with
  | .error e => .error e
  | .ok (n, u) =>
    .ok { id_name := name, name_without_unit := n, unit := u,
          value := value, mean_orig := none, std_orig := none }

/-- Whether an embedded Python call raised. -/
def raises {α : Type} : Except PyErr α → Bool
  | .error _ => true
  | .ok _ => false

/-! ### Normalizer (modelled from the spec, §4.4) -/

/-- Modelled from the spec: the Normalizer of the `domain_classes` package
(behind `Domain.norm` / `Domain.reverse_norm`) is not among the sources;
per the spec, `normalize(field, mean, std)` maps each value `x` of the
field to `(x - mean) / std`. -/
def normalize (x m s : ℚ) : ℚ := (x - m) / s

/-- Modelled from the spec: `denormalize(field, mean, std)` maps each value
`x` of the field to `x * std + mean` (the exact inverse). -/
def denormalize (x m s : ℚ) : ℚ := x * s + m

/-- `Domain.norm` applied to a whole field. -/
def norm_field (f : List ℚ) (m s : ℚ) : List ℚ :=
  f.map (fun x => normalize x m s)

/-- `Domain.reverse_norm` applied to a whole field. -/
def reverse_norm_field (f : List ℚ) (m s : ℚ) : List ℚ :=
  f.map (fun x => denormalize x m s)

/-! ### `PhysicalVariables.__setitem__` (src/data/utils.py, lines 106-109) -/

/-- Embedding of the `PhysicalVariables` dict: an association list from
identifier strings to `PhysicalVariable` records (Python dicts preserve
insertion order and have unique keys). -/
abbrev PhysicalVariables := List (List Char × PhysicalVariable)

/-- Dict lookup: the first entry with the given key. -/
def lookupVar (key : List Char) : PhysicalVariables → Option PhysicalVariable
  | [] => none
  | kv :: rest => if kv.1 = key then some kv.2 else lookupVar key rest

/-- The in-place mutation `self[key].value = value`: update only the
`value` field of the entry stored under `key`, leaving every other field of
that entry and every other entry untouched. -/
def setValueOnly (key : List Char) (v : List ℚ) : PhysicalVariables → PhysicalVariables
  | [] => []
  | kv :: rest =>
    if kv.1 = key then (kv.1, { kv.2 with value := some v }) :: setValueOnly key v rest
    else kv :: setValueOnly key v rest

/-- Embedding of `PhysicalVariables.__setitem__` (src/data/utils.py, lines
106-109): if the key is absent a fresh `PhysicalVariable(key, value)` is
inserted (its construction can raise from `separate_property_unit`);
in every case the stored entry's `value` attribute is then assigned. -/
def PhysicalVariables.setitem (pvs : PhysicalVariables) (key : List Char) (v : List ℚ) :
    Except PyErr PhysicalVariables :=
  match lookupVar key pvs with
  | some _ => .ok (setValueOnly key v pvs)
  | none =>
    match PhysicalVariable.init key (some v) with
    | .error e => .error e
    | .ok pv => .ok (setValueOnly key v (pvs ++ [(key, pv)]))

/-- A concrete stored variable with mean/std statistics already set. -/
def samplePV : PhysicalVariable :=
  { id_name := ['T'], name_without_unit := ['T'], unit := none,
    value := some ([1]), mean_orig := some 5, std_orig := some 2 }

/-- A concrete one-entry `PhysicalVariables` mapping. -/
def samplePVs : PhysicalVariables := [((['T']), samplePV)]

/-! ### Heat-pump boxes and stitching (modelled from the spec, §3 and §4.2) -/

/-- Modelled from the spec: the `HeatPump` class of the `domain_classes`
package is not among the sources.  A box has an integer corner position in
the parent Domain's frame and a `primary_temp_field` prediction, read here
as a function of domain-frame cell coordinates. -/
structure HeatPump where
  pos : Int × Int
  primary_temp_field : Int × Int → ℚ

/-- A cell `p` of the domain lies inside the window of shape `shape`
anchored at `pos`. -/
def inWindow (shape pos p : Int × Int) : Bool :=
  decide (pos.1 ≤ p.1) && decide (p.1 < pos.1 + shape.1) &&
  decide (pos.2 ≤ p.2) && decide (p.2 < pos.2 + shape.2)

/-- Modelled from the spec (§4.2): the values contributed to box
`selfIdx`'s `other_field` at cell `p` — the `primary_temp_field` of every
box in the list other than the box itself whose window covers `p`.  The
counter `j` carries the absolute index of the head of the remaining list. -/
def otherContributions (shape : Int × Int) (selfIdx : Nat) (p : Int × Int) :
    Nat → List HeatPump → List ℚ
  | _, [] => []
  | j, hp :: rest =>
    (if j ≠ selfIdx ∧ inWindow shape hp.pos p = true
     then [hp.primary_temp_field p] else [])
      ++ otherContributions shape selfIdx p (j + 1) rest

/-- Modelled from the spec (§4.2 and §4.3): `HeatPump.get_other_temp_field`
of the `domain_classes` package is not among the sources.  The caller
(src/preprocessing/prepare_2ndstage.py, line 72) passes the full box list
`single_hps` including the box itself; per the spec only the other
overlapping boxes contribute, merged with the `max` rule over the
background value. -/
def get_other_temp_field (shape : Int × Int) (bg : ℚ) (boxes : List HeatPump)
    (selfIdx : Nat) (p : Int × Int) : ℚ :=
  (otherContributions shape selfIdx p 0 boxes).foldl max bg

/-! ### Per-domain phases of `prepare_dataset_for_2nd_stage`
(src/preprocessing/prepare_2ndstage.py, lines 64-78) -/

/-- One step of the per-domain processing, tagged with the index of the
heat-pump box it acts on. -/
inductive Event where
  | inference (hp : Nat)
  | reverseNormEv (hp : Nat)
  | getOtherField (hp : Nat)
  | normSave (hp : Nat)
deriving DecidableEq, Repr

/-- The first loop (lines 64-68): for each box, apply the network, then
denormalize its `primary_temp_field`. -/
def phase1Trace : List Nat → List Event
  | [] => []
  | h :: t => .inference h :: .reverseNormEv h :: phase1Trace t

/-- The per-domain event trace of `prepare_dataset_for_2nd_stage`
(lines 64-78): the inference loop, then the stitching loop
(`get_other_temp_field`), then the normalize-and-save loop, each iterating
over the same `single_hps` list, strictly in sequence. -/
def domainTrace (hps : List Nat) : List Event :=
  phase1Trace hps ++ hps.map Event.getOtherField ++ hps.map Event.normSave

/-! ### The run loop of `prepare_dataset_for_2nd_stage`
(src/preprocessing/prepare_2ndstage.py, lines 53-78) -/

/-- One run (one file of the Inputs directory): its Domain's
`skip_datapoint` flag and the indices of its heat-pump boxes. -/
structure Run where
  rid : Nat
  skip : Bool
  boxes : List Nat
deriving DecidableEq, Repr

/-- Observable steps of the run loop. -/
inductive RunEvent where
  | skipWarn (rid : Nat)
  | extractBoxes (rid : Nat)
  | applyBox (rid : Nat) (hp : Nat)
  | stitchBox (rid : Nat) (hp : Nat)
  | saveBox (rid : Nat) (hp : Nat)
deriving DecidableEq, Repr

/-- One iteration of the run loop (lines 54-78): a skipped Domain only logs
a warning and `continue`s; otherwise `extract_hp_boxes` runs, then the
three per-box phases. -/
def processRun (r : Run) : List RunEvent :=
  if r.skip then [.skipWarn r.rid]
  else
    .extractBoxes r.rid ::
      (r.boxes.map (RunEvent.applyBox r.rid) ++ r.boxes.map (RunEvent.stitchBox r.rid)
        ++ r.boxes.map (RunEvent.saveBox r.rid))

/-- The whole run loop (line 53): runs are processed in order, each
contributing its own events. -/
def prepareTrace : List Run → List RunEvent
  | [] => []
  | r :: rs => processRun r ++ prepareTrace rs

/-- Events that do per-box work or write output files. -/
def isBoxWork : RunEvent → Bool
  | .skipWarn _ => false
  | _ => true

/-! ### `merge_inputs_for_2HPNN`
(src/preprocessing/prepare_2ndstage.py, lines 105-120) -/

/-- The stitching configuration error: in the code the failed `assert
stitching_method == "max"` at line 107 (an `AssertionError`), which the
spec names `UnsupportedStitchingConfigError`. -/
inductive StitchErr where
  | unsupportedStitchingConfig
deriving DecidableEq, Repr

/-- Embedding of the `Stitching` constructor's arguments (line 108):
`Stitching(stitching_method, background_temperature=0)`. -/
structure Stitching where
  method : List Char
  background_temperature : ℚ
deriving DecidableEq, Repr

/-- The string `"max"`. -/
def maxMethod : List Char := ['m', 'a', 'x']

/-- Modelled from the spec (§4.3): the `Stitching` class of the
`domain_classes` package is not among the sources; for the `max` method the
merge of two aligned fields is the cellwise maximum of both fields and the
background value. -/
def stitchingApply (st : Stitching) (a b : List ℚ) : List ℚ :=
  (a.zipWith max b).map (fun x => max x st.background_temperature)

/-- File-system steps of the merge loop (lines 114-120). -/
inductive MergeEvent where
  | readInput (i : Nat)
  | writeMerged (i : Nat)
deriving DecidableEq, Repr

/-- The merge loop (lines 114-120): read each separate-inputs file, stitch
its two channels, write the merged file. -/
def mergeLoop (st : Stitching) :
    List (List ℚ × List ℚ) → Nat → List MergeEvent × List (List ℚ)
  | [], _ => ([], [])
  | f :: fs, i =>
    let rest := mergeLoop st fs (i + 1)
    (.readInput i :: .writeMerged i :: rest.1, stitchingApply st f.1 f.2 :: rest.2)

/-- Embedding of `merge_inputs_for_2HPNN` (lines 105-120): first the
`assert stitching_method == "max"` (line 107) runs — before any input file
is touched — then the `Stitching` is constructed with background value 0
(line 108) and the merge loop runs.  The result pairs the file-system trace
with the outcome. -/
def merge_inputs_for_2HPNN (files : List (List ℚ × List ℚ)) (stitching_method : List Char) :
    List MergeEvent × Except StitchErr (Stitching × List (List ℚ)) :=
  if stitching_method = maxMethod then
    let st : Stitching := { method := stitching_method, background_temperature := 0 }
    ((mergeLoop st files 0).1, .ok (st, (mergeLoop st files 0).2))
  else ([], .error .unsupportedStitchingConfig)

/-! ### The save phase (src/preprocessing/prepare_2ndstage.py, lines 74-78) -/

/-- The two per-box temperature fields entering the save loop. -/
structure HPFields where
  primary_temp_field : List ℚ
  other_temp_field : List ℚ
deriving DecidableEq, Repr

/-- Embedding of the save loop (lines 74-78): for each box, normalize both
fields and stack them — `stack([hp.primary_temp_field, hp.other_temp_field])`
— yielding the persisted per-box input stack. -/
def savePhase (m s : ℚ) (hps : List HPFields) : List (List (List ℚ)) :=
  hps.map (fun hp =>
    [norm_field hp.primary_temp_field m s, norm_field hp.other_temp_field m s])

/-! ### Inference-time averaging (src/preprocessing/prepare_2ndstage.py,
lines 51-81) -/

/-- One run as seen by the timing code: the skip flag and the measured
inference time of each of its boxes. -/
structure TimedRun where
  skip : Bool
  boxTimes : List ℚ
deriving DecidableEq, Repr

/-- Python division: raises `ZeroDivisionError` on a zero divisor. -/
def pydiv (a b : ℚ) : Except PyErr ℚ :=
  if b = 0 then .error .zeroDivisionError else .ok (a / b)

/-- The run loop's effect on `avg_time_inference_1hp` (lines 51-69): the
accumulator starts at 0; a skipped run leaves it unchanged; otherwise the
per-box times are added and the accumulator is divided by
`len(single_hps)` (line 69). -/
def inferenceLoop : ℚ → List TimedRun → Except PyErr ℚ
  | avg, [] => .ok avg
  | avg, r :: rs =>
    if r.skip then inferenceLoop avg rs
    else
      match pydiv (avg + r.boxTimes.sum) (r.boxTimes.length : ℚ) with
      | .error e => .error e
      | .ok avg2 => inferenceLoop avg2 rs

/-- Line 81: `avg_inference_times = avg_time_inference_1hp / len(list_runs)`
after the loop. -/
def avg_inference_times (runs : List TimedRun) : Except PyErr ℚ :=
  match inferenceLoop 0 runs with
  | .error e => .error e
  | .ok avg => pydiv avg (runs.length : ℚ)

/-! ## Theorems -/

theorem strFind_eq_some_iff (pat s : List Char) (i : Nat) :
    strFind pat s = some i ↔ occursFirstAt pat s i := by
  induction s generalizing i with
  | nil =>
    constructor
    · intro h
      unfold strFind at h
      split at h
      · simp only [Option.some.injEq] at h
        subst h
        exact ⟨by assumption, fun j hj => absurd hj (Nat.not_lt_zero j)⟩
      · exact absurd h (by simp)
    · rintro ⟨h1, h2⟩
      unfold strFind
      cases i with
      | zero => simp_all
      | succ n =>
        have := h2 0 (Nat.succ_pos n)
        simp only [List.drop_nil] at h1 this
        rw [h1] at this
        exact absurd this (by simp)
  | cons c cs ih =>
    constructor
    · intro h
      unfold strFind at h
      split at h
      · simp only [Option.some.injEq] at h
        subst h
        refine ⟨by simpa using (by assumption), fun j hj => absurd hj (Nat.not_lt_zero j)⟩
      · rename_i hb
        simp only [Option.map_eq_some'] at h
        obtain ⟨n, hn, hni⟩ := h
        subst hni
        obtain ⟨g1, g2⟩ := (ih n).mp hn
        refine ⟨by simpa using g1, ?_⟩
        intro j hj
        cases j with
        | zero => simpa using Bool.of_not_eq_true hb
        | succ m =>
          have := g2 m (Nat.lt_of_succ_lt_succ hj)
          simpa using this
    · rintro ⟨h1, h2⟩
      unfold strFind
      cases i with
      | zero =>
        simp only [List.drop_zero] at h1
        simp [h1]
      | succ n =>
        have h0 := h2 0 (Nat.succ_pos n)
        simp only [List.drop_zero] at h0
        rw [h0]
        simp only [Bool.false_eq_true, if_false, Option.map_eq_some']
        refine ⟨n, (ih n).mpr ⟨by simpa using h1, ?_⟩, rfl⟩
        intro j hj
        have := h2 (j + 1) (Nat.succ_lt_succ hj)
        simpa using this

theorem strFind_isSome_iff (pat s : List Char) :
    (strFind pat s).isSome = true ↔ occursIn pat s := by
  constructor
  · intro h
    obtain ⟨i, hi⟩ := Option.isSome_iff_exists.mp h
    exact ⟨i, ((strFind_eq_some_iff pat s i).mp hi).1⟩
  · rintro ⟨i, hi⟩
    induction s generalizing i with
    | nil =>
      cases i <;> simp only [List.drop_nil] at hi <;>
        · unfold strFind; simp [hi]
    | cons c cs ih =>
      unfold strFind
      split
      · rfl
      · rename_i hb
        cases i with
        | zero => simp only [List.drop_zero] at hi; rw [hi] at hb; simp at hb
        | succ n =>
          have := ih n (by simpa using hi)
          simpa using this

theorem strFind_eq_none_iff (pat s : List Char) :
    strFind pat s = none ↔ ¬ occursIn pat s := by
  rw [← strFind_isSome_iff]
  cases h : strFind pat s <;> simp [h]

/-- C10: `separate_property_unit` raises `AssertionError` exactly when its
input contains one of the substrings `' ['` and `']'` but not the other;
when it contains both or neither it returns normally. -/
theorem separate_property_unit_raises_iff (s : List Char) :
    raises (separate_property_unit s) = true ↔
      ((occursIn spaceOpen s ∧ ¬ occursIn closeBr s) ∨
       (¬ occursIn spaceOpen s ∧ occursIn closeBr s)) := by
  cases h1 : strFind spaceOpen s <;> cases h2 : strFind closeBr s
  · have o1 := (strFind_eq_none_iff spaceOpen s).mp h1
    have o2 := (strFind_eq_none_iff closeBr s).mp h2
    simp [separate_property_unit, raises, h1, h2, o1, o2]
  · have o1 := (strFind_eq_none_iff spaceOpen s).mp h1
    have o2 := (strFind_isSome_iff closeBr s).mp (by simp [h2])
    simp [separate_property_unit, raises, h1, h2, o1, o2]
  · have o1 := (strFind_isSome_iff spaceOpen s).mp (by simp [h1])
    have o2 := (strFind_eq_none_iff closeBr s).mp h2
    simp [separate_property_unit, raises, h1, h2, o1, o2]
  · have o1 := (strFind_isSome_iff spaceOpen s).mp (by simp [h1])
    have o2 := (strFind_isSome_iff closeBr s).mp (by simp [h2])
    simp [separate_property_unit, raises, h1, h2, o1, o2]

/-- C6: `PhysicalVariable` parses its identifier exactly once at
construction: when the identifier contains both `' ['` (first occurrence at
`io`) and `']'` (first occurrence at `ic`), the stored name is the text
before `' ['` and the stored unit the text between `' ['` and the first
`']'`; when it contains neither, the stored name is the whole identifier
and the unit is `none`.  The parse result is stored in the record fields,
so later accesses read the stored pair and never re-parse. -/
theorem physicalVariable_unit_parsing (s : List Char) (v : Option (List ℚ)) :
    (∀ io ic, occursFirstAt spaceOpen s io → occursFirstAt closeBr s ic →
      PhysicalVariable.init s v =
        .ok { id_name := s, name_without_unit := s.take io,
              unit := some ((s.take ic).drop (io + 2)),
              value := v, mean_orig := none, std_orig := none })
    ∧ (¬ occursIn spaceOpen s → ¬ occursIn closeBr s →
      PhysicalVariable.init s v =
        .ok { id_name := s, name_without_unit := s, unit := none,
              value := v, mean_orig := none, std_orig := none }) := by
  constructor
  · intro io ic hio hic
    have h1 : strFind spaceOpen s = some io := (strFind_eq_some_iff _ _ _).mpr hio
    have h2 : strFind closeBr s = some ic := (strFind_eq_some_iff _ _ _).mpr hic
    simp [PhysicalVariable.init, separate_property_unit, h1, h2]
  · intro ho hc
    have h1 : strFind spaceOpen s = none := (strFind_eq_none_iff _ _).mpr ho
    have h2 : strFind closeBr s = none := (strFind_eq_none_iff _ _).mpr hc
    simp [PhysicalVariable.init, separate_property_unit, h1, h2]

/-- Witness for C6 at the concrete identifier `"T [C]"`. -/
theorem physicalVariable_unit_parsing_witness :
    occursFirstAt spaceOpen (['T', ' ', '[', 'C', ']']) 1 ∧
    occursFirstAt closeBr (['T', ' ', '[', 'C', ']']) 4 ∧
    PhysicalVariable.init (['T', ' ', '[', 'C', ']']) none =
      .ok { id_name := ['T', ' ', '[', 'C', ']'], name_without_unit := ['T'],
            unit := some (['C']), value := none,
            mean_orig := none, std_orig := none } := by
  refine ⟨⟨by decide, ?_⟩, ⟨by decide, ?_⟩, ?_⟩
  · intro j hj
    interval_cases j
    decide
  · intro j hj
    interval_cases j <;> decide
  · have := (physicalVariable_unit_parsing (['T', ' ', '[', 'C', ']']) none).1 1 4
      ⟨by decide, by intro j hj; interval_cases j; decide⟩
      ⟨by decide, by intro j hj; interval_cases j <;> decide⟩
    simpa using this

/-- C1: normalization round-trip.  For every field and every `(mean, std)`
with `std ≠ 0`, denormalizing a normalized field restores it exactly, and —
as `prepare_dataset_for_2nd_stage` does with each predicted temperature
field — normalizing a denormalized field with the same statistics restores
the original prediction. -/
theorem normalization_round_trip (f : List ℚ) (m s : ℚ) (h : s ≠ 0) :
    reverse_norm_field (norm_field f m s) m s = f ∧
    norm_field (reverse_norm_field f m s) m s = f := by
  have h1 : ∀ x : ℚ, denormalize (normalize x m s) m s = x := by
    intro x
    unfold normalize denormalize
    field_simp
  have h2 : ∀ x : ℚ, normalize (denormalize x m s) m s = x := by
    intro x
    unfold normalize denormalize
    field_simp
  constructor
  · unfold reverse_norm_field norm_field
    rw [List.map_map]
    calc f.map ((fun x => denormalize x m s) ∘ fun x => normalize x m s)
        = f.map id := List.map_congr_left (fun x _ => h1 x)
      _ = f := List.map_id f
  · unfold reverse_norm_field norm_field
    rw [List.map_map]
    calc f.map ((fun x => normalize x m s) ∘ fun x => denormalize x m s)
        = f.map id := List.map_congr_left (fun x _ => h2 x)
      _ = f := List.map_id f

/-- Witness for C1 at the concrete field `[3, 7]` with mean 1 and std 2. -/
theorem normalization_round_trip_witness :
    (2 : ℚ) ≠ 0 ∧
    (reverse_norm_field (norm_field ([3, 7]) 1 2) 1 2 = ([3, 7]) ∧
     norm_field (reverse_norm_field ([3, 7]) 1 2) 1 2 = ([3, 7])) :=
  ⟨by norm_num, normalization_round_trip ([3, 7]) 1 2 (by norm_num)⟩

theorem lookupVar_setValueOnly_self (key : List Char) (v : List ℚ)
    (pvs : PhysicalVariables) (pv0 : PhysicalVariable)
    (h : lookupVar key pvs = some pv0) :
    lookupVar key (setValueOnly key v pvs) = some { pv0 with value := some v } := by
  induction pvs with
  | nil => simp [lookupVar] at h
  | cons kv rest ih =>
    by_cases hk : kv.1 = key
    · simp [lookupVar, hk] at h
      simp [setValueOnly, lookupVar, hk, h]
    · simp [lookupVar, hk] at h
      simp [setValueOnly, lookupVar, hk, ih h]

theorem lookupVar_setValueOnly_other (key k2 : List Char) (v : List ℚ)
    (pvs : PhysicalVariables) (h : k2 ≠ key) :
    lookupVar k2 (setValueOnly key v pvs) = lookupVar k2 pvs := by
  induction pvs with
  | nil => rfl
  | cons kv rest ih =>
    unfold setValueOnly
    by_cases hk : kv.1 = key
    · rw [if_pos hk]
      unfold lookupVar
      have hne : kv.1 ≠ k2 := by rw [hk]; exact fun e => h e.symm
      rw [if_neg hne, if_neg hne]
      exact ih
    · rw [if_neg hk]
      unfold lookupVar
      by_cases hk2 : kv.1 = k2
      · rw [if_pos hk2, if_pos hk2]
      · rw [if_neg hk2, if_neg hk2]
        exact ih

/-- C7: assigning to an already-present key of a `PhysicalVariables`
mapping updates only the stored record's `value` field: `id_name`,
`name_without_unit`, `unit`, `mean_orig` and `std_orig` are unchanged (so
once-set mean/std statistics survive every later value update), and every
other key's entry is untouched. -/
theorem setitem_value_only_mutation (pvs : PhysicalVariables) (key : List Char)
    (v : List ℚ) (pv0 : PhysicalVariable) (h : lookupVar key pvs = some pv0) :
    ∃ pvs2, PhysicalVariables.setitem pvs key v = .ok pvs2 ∧
      lookupVar key pvs2 =
        some { id_name := pv0.id_name, name_without_unit := pv0.name_without_unit,
               unit := pv0.unit, value := some v,
               mean_orig := pv0.mean_orig, std_orig := pv0.std_orig } ∧
      ∀ k2, k2 ≠ key → lookupVar k2 pvs2 = lookupVar k2 pvs := by
  refine ⟨setValueOnly key v pvs, ?_, ?_, ?_⟩
  · simp [PhysicalVariables.setitem, h]
  · exact lookupVar_setValueOnly_self key v pvs pv0 h
  · intro k2 hk2
    exact lookupVar_setValueOnly_other key k2 v pvs hk2

/-- Witness for C7: a one-entry mapping whose stored variable already has
mean/std statistics; updating its value keeps them. -/
theorem setitem_value_only_mutation_witness :
    lookupVar (['T']) samplePVs = some samplePV ∧
    ∃ pvs2, PhysicalVariables.setitem samplePVs (['T']) ([9]) = .ok pvs2 ∧
      lookupVar (['T']) pvs2 =
        some { id_name := samplePV.id_name,
               name_without_unit := samplePV.name_without_unit,
               unit := samplePV.unit, value := some ([9]),
               mean_orig := samplePV.mean_orig, std_orig := samplePV.std_orig } ∧
      ∀ k2, k2 ≠ (['T']) → lookupVar k2 pvs2 = lookupVar k2 samplePVs :=
  ⟨by decide, setitem_value_only_mutation samplePVs (['T']) ([9]) samplePV (by decide)⟩

theorem otherContributions_set (shape : Int × Int) (p : Int × Int) (b : HeatPump) :
    ∀ (boxes : List HeatPump) (i j : Nat),
      otherContributions shape (j + i) p j (boxes.set i b) =
      otherContributions shape (j + i) p j boxes := by
  intro boxes
  induction boxes with
  | nil => intro i j; rfl
  | cons hp rest ih =>
    intro i j
    cases i with
    | zero =>
      simp only [List.set_cons_zero]
      unfold otherContributions
      simp
    | succ n =>
      simp only [List.set_cons_succ]
      unfold otherContributions
      congr 1
      rw [show j + (n + 1) = (j + 1) + n from by omega]
      exact ih n (j + 1)

/-- C2: stitching exclusion.  A box's `other_field` never incorporates its
own `primary_field`, even though the caller passes the full box list
(including the box itself): replacing the box at index `i` by any other box
whatsoever leaves `get_other_temp_field` for index `i` unchanged at every
cell. -/
theorem stitching_exclusion (shape : Int × Int) (bg : ℚ) (boxes : List HeatPump)
    (i : Nat) (p : Int × Int) (b : HeatPump) :
    get_other_temp_field shape bg (boxes.set i b) i p =
    get_other_temp_field shape bg boxes i p := by
  unfold get_other_temp_field
  have h0 := otherContributions_set shape p b boxes i 0
  rw [Nat.zero_add] at h0
  rw [h0]

theorem mem_phase1Trace (hps : List Nat) (e : Event) (h : e ∈ phase1Trace hps) :
    ∃ a, e = .inference a ∨ e = .reverseNormEv a := by
  induction hps with
  | nil => simp [phase1Trace] at h
  | cons x t ih =>
    simp only [phase1Trace, List.mem_cons] at h
    rcases h with h | h | h
    · exact ⟨x, Or.inl h⟩
    · exact ⟨x, Or.inr h⟩
    · exact ih h

theorem mem_phase23 (hps : List Nat) (e : Event)
    (h : e ∈ hps.map Event.getOtherField ++ hps.map Event.normSave) :
    ∃ a, e = .getOtherField a ∨ e = .normSave a := by
  rw [List.mem_append] at h
  rcases h with h | h
  · rw [List.mem_map] at h
    obtain ⟨a, _, rfl⟩ := h
    exact ⟨a, Or.inl rfl⟩
  · rw [List.mem_map] at h
    obtain ⟨a, _, rfl⟩ := h
    exact ⟨a, Or.inr rfl⟩

/-- C3: two-phase barrier.  In the per-domain trace of
`prepare_dataset_for_2nd_stage`, every inference/denormalization event of
the first loop happens strictly before every `get_other_temp_field` event:
the stitching pass begins only after `apply_nn` and the `reverse_norm` of
`primary_temp_field` have completed for every box of the Domain, never
interleaved. -/
theorem two_phase_barrier (hps : List Nat) (i j a b : Nat)
    (hi : (domainTrace hps)[i]? = some (.inference a) ∨
          (domainTrace hps)[i]? = some (.reverseNormEv a))
    (hj : (domainTrace hps)[j]? = some (.getOtherField b)) :
    i < j := by
  have hassoc : domainTrace hps =
      phase1Trace hps ++ (hps.map Event.getOtherField ++ hps.map Event.normSave) := by
    simp [domainTrace]
  have hjge : (phase1Trace hps).length ≤ j := by
    by_contra hlt
    push_neg at hlt
    rw [hassoc, List.getElem?_append] at hj
    rw [if_pos hlt] at hj
    obtain ⟨a2, ha2⟩ := mem_phase1Trace hps _ (List.getElem?_mem hj)
    rcases ha2 with ha2 | ha2 <;> simp at ha2
  have hilt : i < (phase1Trace hps).length := by
    by_contra hge
    push_neg at hge
    rcases hi with hi | hi <;>
    · rw [hassoc, List.getElem?_append] at hi
      rw [if_neg (Nat.not_lt_of_le hge)] at hi
      obtain ⟨a2, ha2⟩ := mem_phase23 hps _ (List.getElem?_mem hi)
      rcases ha2 with ha2 | ha2 <;> simp at ha2
  exact Nat.lt_of_lt_of_le hilt hjge

/-- Witness for C3: a two-box domain; the first inference event precedes
the first stitching event. -/
theorem two_phase_barrier_witness :
    (domainTrace ([0, 1]))[0]? = some (.inference 0) ∧
    (domainTrace ([0, 1]))[4]? = some (.getOtherField 0) ∧
    (0 : Nat) < 4 :=
  ⟨by decide, by decide,
   two_phase_barrier ([0, 1]) 0 4 0 0 (Or.inl (by decide)) (by decide)⟩

theorem prepareTrace_append (a b : List Run) :
    prepareTrace (a ++ b) = prepareTrace a ++ prepareTrace b := by
  induction a with
  | nil => rfl
  | cons r rs ih => simp [prepareTrace, ih]

/-- C4: skip correctness.  A run whose Domain has `skip_datapoint = true`
contributes only its warning to the trace — no box extraction, no
inference, no stitching and no saved output file — and the runs before and
after it are processed exactly as they would otherwise be (the batch is not
aborted). -/
theorem skip_correctness (pre post : List Run) (r : Run) (h : r.skip = true) :
    prepareTrace (pre ++ r :: post) =
      prepareTrace pre ++ RunEvent.skipWarn r.rid :: prepareTrace post ∧
    (processRun r).countP isBoxWork = 0 := by
  constructor
  · rw [prepareTrace_append]
    simp [prepareTrace, processRun, h]
  · simp [processRun, h, isBoxWork]

/-- Witness for C4: a skipped run between no runs and one working run. -/
theorem skip_correctness_witness :
    prepareTrace ([({ rid := 7, skip := true, boxes := [0] } : Run),
                   { rid := 8, skip := false, boxes := [2] }]) =
      prepareTrace ([] : List Run) ++ RunEvent.skipWarn 7 ::
        prepareTrace ([({ rid := 8, skip := false, boxes := [2] } : Run)]) ∧
    (processRun { rid := 7, skip := true, boxes := [0] }).countP isBoxWork = 0 :=
  skip_correctness [] ([({ rid := 8, skip := false, boxes := [2] } : Run)])
    { rid := 7, skip := true, boxes := [0] } (by decide)

theorem mergeLoop_outputs (st : Stitching) (files : List (List ℚ × List ℚ)) :
    ∀ i, (mergeLoop st files i).2 = files.map (fun f => stitchingApply st f.1 f.2) := by
  induction files with
  | nil => intro i; rfl
  | cons f fs ih => intro i; simp [mergeLoop, ih]

/-- C5: stitching-configuration fail-fast.  For every stitching method
other than `"max"`, `merge_inputs_for_2HPNN` fails with the unsupported-
configuration error before any input file is read or written (empty
file-system trace), whatever the input files are; for `"max"` the
`Stitching` is constructed with background value 0 and every file is
merged with it. -/
theorem merge_inputs_fail_fast (files : List (List ℚ × List ℚ)) (m : List Char) :
    (m ≠ maxMethod →
      merge_inputs_for_2HPNN files m = ([], .error .unsupportedStitchingConfig)) ∧
    (merge_inputs_for_2HPNN files maxMethod).2 =
      .ok ({ method := maxMethod, background_temperature := 0 },
           files.map (fun f =>
             stitchingApply { method := maxMethod, background_temperature := 0 } f.1 f.2)) := by
  constructor
  · intro h
    simp [merge_inputs_for_2HPNN, h]
  · simp [merge_inputs_for_2HPNN, mergeLoop_outputs]

/-- Witness for C5 at the method `"mean"`. -/
theorem merge_inputs_fail_fast_witness :
    merge_inputs_for_2HPNN ([]) (['m', 'e', 'a', 'n']) =
      ([], .error .unsupportedStitchingConfig) :=
  (merge_inputs_fail_fast ([]) (['m', 'e', 'a', 'n'])).1 (by decide)

/-- C8: two-channel output stack.  For every box that reaches the save
loop, the persisted input stack is exactly two channels: the normalized
`primary_temp_field` first, the normalized `other_temp_field` second. -/
theorem two_channel_stack (m s : ℚ) (hps : List HPFields) (i : Nat)
    (h : i < hps.length) :
    (savePhase m s hps)[i]? =
      some ([norm_field (hps.get ⟨i, h⟩).primary_temp_field m s,
             norm_field (hps.get ⟨i, h⟩).other_temp_field m s]) ∧
    ∀ stack, (savePhase m s hps)[i]? = some stack → stack.length = 2 := by
  have h1 : (savePhase m s hps)[i]? =
      some ([norm_field (hps.get ⟨i, h⟩).primary_temp_field m s,
             norm_field (hps.get ⟨i, h⟩).other_temp_field m s]) := by
    unfold savePhase
    rw [List.getElem?_map, List.getElem?_eq_getElem h]
    rfl
  refine ⟨h1, ?_⟩
  intro stack hs
  rw [h1] at hs
  simp only [Option.some.injEq] at hs
  subst hs
  rfl

/-- Witness for C8 at a one-box domain. -/
theorem two_channel_stack_witness :
    (savePhase 1 2 ([({ primary_temp_field := [3], other_temp_field := [5] } : HPFields)]))[0]? =
      some ([norm_field ([3]) 1 2, norm_field ([5]) 1 2]) := by
  have := (two_channel_stack 1 2
    ([({ primary_temp_field := [3], other_temp_field := [5] } : HPFields)]) 0 (by decide)).1
  simpa using this

theorem inferenceLoop_error (runs : List TimedRun) (avg : ℚ)
    (h : ∃ r ∈ runs, r.skip = false ∧ r.boxTimes = []) :
    inferenceLoop avg runs = .error .zeroDivisionError := by
  induction runs generalizing avg with
  | nil => simp at h
  | cons r rs ih =>
    obtain ⟨r0, hmem, hskip, hempty⟩ := h
    unfold inferenceLoop
    rcases List.mem_cons.mp hmem with rfl | hmem2
    · rw [if_neg (by simp [hskip])]
      simp [hempty, pydiv]
    · by_cases hs : r.skip
      · rw [if_pos hs]
        exact ih avg ⟨r0, hmem2, hskip, hempty⟩
      · rw [if_neg hs]
        by_cases hb : r.boxTimes = []
        · simp [hb, pydiv]
        · have hlen : (r.boxTimes.length : ℚ) ≠ 0 :=
            Nat.cast_ne_zero.mpr (fun e => hb (List.length_eq_zero.mp e))
          simp only [pydiv, if_neg hlen]
          exact ih _ ⟨r0, hmem2, hskip, hempty⟩

/-- C9: with an empty Inputs directory the final average at line 81 divides
by `len(list_runs) = 0` and raises `ZeroDivisionError` instead of
completing; likewise a non-skipped run whose box sequence is empty raises
`ZeroDivisionError` at the per-run average of line 69. -/
theorem avg_inference_times_zero_division (runs : List TimedRun)
    (h : runs = [] ∨ ∃ r ∈ runs, r.skip = false ∧ r.boxTimes = []) :
    avg_inference_times runs = .error .zeroDivisionError := by
  rcases h with rfl | h
  · simp [avg_inference_times, inferenceLoop, pydiv]
  · unfold avg_inference_times
    rw [inferenceLoop_error runs 0 h]

/-- Witness for C9: the empty run list, and a single non-skipped run with
no boxes. -/
theorem avg_inference_times_zero_division_witness :
    avg_inference_times ([] : List TimedRun) = .error .zeroDivisionError ∧
    avg_inference_times ([({ skip := false, boxTimes := [] } : TimedRun)]) =
      .error .zeroDivisionError :=
  ⟨avg_inference_times_zero_division [] (Or.inl rfl),
   avg_inference_times_zero_division ([({ skip := false, boxTimes := [] } : TimedRun)])
     (Or.inr ⟨{ skip := false, boxTimes := [] }, by simp, rfl, rfl⟩)⟩

end HeatPlume
